import Mathlib

/-!
# Verification of the clinic reservation system's booking/availability core

Shallow embedding of the booking-and-availability engine of the
clinic-reservation-system repository:

* `DoctorAvailabilityService` (`getDoctorAvailability`, `generateTimeSlots`,
  `getDoctorAvailabilityRange`, `searchAvailableDoctors`),
* `BookingValidator` (`validateCreateBooking`, `validateTimeSlot`,
  `validateCancellation`),
* `BookingService` (`createBooking`, `listBookings`, `cancelBooking`),
* the fixed-window `RateLimiter` and the `TokenBucket`.

Modelling conventions:

* Timestamps are integer milliseconds on a single (UTC-like) timeline; the
  `timezone` string parameters of the source are carried through data but no
  zone-offset conversion is modelled (every collaborator is assumed to run in
  one zone, as the deployed system does).
* Calendar dates are integer day numbers (days since 1970-01-01); times of day
  are integer minutes since midnight, matching the source's "HH:mm" strings
  (lexicographic comparison of fixed-width "HH:mm" strings coincides with
  numeric comparison of minutes).
* Monetary amounts, percentages and token counts are rationals (the source
  uses JS numbers; the claims under study are exact-arithmetic properties).
* The relational store is a record of lists of rows, one list per table, with
  row types carrying exactly the columns the embedded queries touch; SQL
  queries become list filters/finds.  The best-effort cache is modelled as a
  permanent miss (a cache hit returns a previously computed value unchanged,
  so cache behaviour does not affect the functional properties studied here).
* JS quirks that the code relies on are embedded explicitly:
  `x || d` on numbers (`0`/`null` fall back to `d`) becomes `jsOrDefault`,
  and `a < undefined` (always false) is embedded by matching on `Option`.
-/

namespace ClinicReservation

/-! ## JS arithmetic helpers -/

/-- `Math.ceil (x / 1000)` on an integer number of milliseconds. -/
def ceilDiv1000 (x : Int) : Int := -((-x) / 1000)

/-- JS `v || d` for a numeric field that may be `null`/`undefined` (`none`) or
zero: both fall back to the default. -/
def jsOrDefault (v : Option ℚ) (d : ℚ) : ℚ :=
  match v with
  | none => d
  | some x => if x = 0 then d else x

/-- JS `a < b` where `b` may be `undefined` (`none`): comparing with
`undefined` yields `NaN` and the comparison is `false`. -/
def jsLtOpt (a : ℚ) (b : Option ℚ) : Bool :=
  match b with
  | none => false
  | some x => a < x

/-! ## Calendar arithmetic

`new Date().setMonth(getMonth() + 3)` in `BookingValidator.validateTimeSlot`
adds three calendar months (with JS day-of-month overflow carrying into the
next month).  We embed the standard civil-calendar conversions between epoch
day numbers and `(year, month, day)` triples and build the month addition on
top of them. -/

/-- Milliseconds per civil day. -/
def msPerDay : Int := 86400000

/-- Day number since 1970-01-01 of the civil date `(y, m, d)`, `m ∈ [1,12]`.
The formula is linear in `d`, so an out-of-range `d` rolls over into the
following month exactly as JS `Date` does. -/
def daysFromCivil (y m d : Int) : Int :=
  let y' := if m ≤ 2 then y - 1 else y
  let era := y' / 400
  let yoe := y' - era * 400
  let mp := (m + 9) % 12
  let doy := (153 * mp + 2) / 5 + d - 1
  let doe := yoe * 365 + yoe / 4 - yoe / 100 + doy
  era * 146097 + doe - 719468

/-- Civil date `(y, m, d)` of epoch day number `z`. -/
def civilFromDays (z : Int) : Int × Int × Int :=
  let z' := z + 719468
  let era := z' / 146097
  let doe := z' % 146097
  let yoe := (doe - doe / 1460 + doe / 36524 - doe / 146096) / 365
  let y := yoe + era * 400
  let doy := doe - (365 * yoe + yoe / 4 - yoe / 100)
  let mp := (5 * doy + 2) / 153
  let d := doy - (153 * mp + 2) / 5 + 1
  let m := mp + (if mp < 10 then 3 else -9)
  (if m ≤ 2 then y + 1 else y, m, d)

/-- `maxBookingDate` of `BookingValidator.validateTimeSlot`: the timestamp
`now` moved three calendar months forward (`setMonth(getMonth() + 3)`),
keeping the time of day. -/
def addThreeMonths (now : Int) : Int :=
  let days := now / msPerDay
  let msOfDay := now % msPerDay
  let c := civilFromDays days
  let y := c.1
  let m0 := c.2.1 - 1 + 3
  let d := c.2.2
  let ym := if m0 ≥ 12 then (y + 1, m0 - 12) else (y, m0)
  daysFromCivil ym.1 (ym.2 + 1) d * msPerDay + msOfDay

/-- Epoch day number of a millisecond timestamp. -/
def dayOf (t : Int) : Int := t / msPerDay

/-- Minute of the day (0–1439) of a millisecond timestamp; this is what
`toTimeString().slice(0, 5)` / `moment(...).format('HH:mm')` compare. -/
def minuteOf (t : Int) : Int := (t % msPerDay) / 60000

/-- `moment(date).day()`: day of week of an epoch day number, `0 = Sunday`.
1970-01-01 was a Thursday (`4`). -/
def dayOfWeekOf (date : Int) : Int := (date + 4) % 7

/-! ## Sorting helper

The source sorts with JS `Array.prototype.sort`.  We embed a simple insertion
sort parameterised by a `Bool`-valued "should `a` come before or with `b`"
relation, together with the membership/length facts the claims need. -/

/-- Insert `a` into `l`, keeping elements `b` with `le b a` in front. -/
def insertBy {α : Type} (le : α → α → Bool) (a : α) : List α → List α
  | [] => [a]
  | b :: l => if le b a then b :: insertBy le a l else a :: b :: l

/-- Insertion sort by the `Bool`-valued relation `le`. -/
def sortBy {α : Type} (le : α → α → Bool) : List α → List α
  | [] => []
  | a :: l => insertBy le a (sortBy le l)

theorem mem_insertBy {α : Type} (le : α → α → Bool) (a x : α) (l : List α) :
    x ∈ insertBy le a l ↔ x = a ∨ x ∈ l := by
  induction l with
  | nil => simp [insertBy]
  | cons b l ih =>
      simp only [insertBy]
      by_cases h : le b a = true
      · rw [if_pos h]
        simp only [List.mem_cons, ih]
        tauto
      · rw [if_neg h]
        simp only [List.mem_cons]

theorem mem_sortBy {α : Type} (le : α → α → Bool) (x : α) (l : List α) :
    x ∈ sortBy le l ↔ x ∈ l := by
  induction l with
  | nil => simp [sortBy]
  | cons a l ih => simp [sortBy, mem_insertBy, ih]

theorem length_insertBy {α : Type} (le : α → α → Bool) (a : α) (l : List α) :
    (insertBy le a l).length = l.length + 1 := by
  induction l with
  | nil => simp [insertBy]
  | cons b l ih =>
      simp only [insertBy]
      by_cases h : le b a = true
      · simp [h, ih]
      · simp [h]

theorem length_sortBy {α : Type} (le : α → α → Bool) (l : List α) :
    (sortBy le l).length = l.length := by
  induction l with
  | nil => rfl
  | cons a l ih => simp [sortBy, length_insertBy, ih]

/-! ## Data model

Row types carry the columns the embedded queries read.  Statuses are the five
values of the `bookings.status` column. -/

/-- `bookings.status`. -/
inductive BookingStatus
  | pending | confirmed | cancelled | completed | noShow
deriving DecidableEq, Repr

/-- A `bookings` row (the columns the embedded code touches). -/
structure BookingRow where
  id : String
  patient_id : String
  doctor_id : String
  service_type_id : String
  /-- scheduled time, epoch milliseconds -/
  appointment_time : Int
  status : BookingStatus
  payment_method_id : Option String := none
  insurance_id : Option String := none
  total_amount : ℚ := 0
  insurance_covered_amount : ℚ := 0
  patient_payment_amount : ℚ := 0
  cancellation_reason : Option String := none
  cancelled_at : Option Int := none
  cancelled_by : Option String := none
deriving DecidableEq, Repr

/-- A `doctors` row. -/
structure DoctorRow where
  id : String
  clinic_id : String
  is_active : Bool
deriving DecidableEq, Repr

/-- A `patients` row. -/
structure PatientRow where
  id : String
  is_active : Bool
deriving DecidableEq, Repr

/-- A `service_types` row. -/
structure ServiceTypeRow where
  id : String
  is_active : Bool
  /-- `base_price`; `none` models SQL `NULL`. -/
  base_price : Option ℚ := none
  insurance_covered : Bool := false
deriving DecidableEq, Repr

/-- A `doctor_schedules` row.  `start_time`/`end_time` are minutes since
midnight (the source compares "HH:mm" strings). -/
structure ScheduleRow where
  id : String
  doctor_id : String
  day_of_week : Int
  start_time : Int
  end_time : Int
  slot_duration_minutes : Int
  service_type_id : Option String := none
  is_active : Bool
deriving DecidableEq, Repr

/-- A `patient_insurance` row. -/
structure InsuranceRow where
  id : String
  patient_id : String
  is_active : Bool
  /-- `expiry_date`, epoch milliseconds; `none` models SQL `NULL`. -/
  expiry_date : Option Int := none
  coverage_percentage : Option ℚ := none
deriving DecidableEq, Repr

/-- A `payment_methods` row. -/
structure PaymentMethodRow where
  id : String
  patient_id : String
  is_active : Bool
deriving DecidableEq, Repr

/-- A `cancellation_policies` row, with the fields
`BookingValidator.validateCancellation` reads (`minimum_hours_notice`,
`penalty_percentage`); `none` models an absent/`NULL` value. -/
structure PolicyRow where
  clinic_id : String
  is_active : Bool
  minimum_hours_notice : Option ℚ := none
  penalty_percentage : Option ℚ := none
deriving DecidableEq, Repr

/-- A `blocked_slots` row (`doctor_id`, `blocked_time`). -/
structure BlockedSlotRow where
  doctor_id : String
  /-- `blocked_time`, epoch milliseconds -/
  blocked_time : Int
deriving DecidableEq, Repr

/-- A `cancellation_fees` row as inserted by `BookingService.cancelBooking`. -/
structure FeeRow where
  booking_id : String
  amount : ℚ
  percentage : ℚ
deriving DecidableEq, Repr

/-- The relational store: one list of rows per table the embedded code
queries. -/
structure Db where
  doctors : List DoctorRow := []
  patients : List PatientRow := []
  service_types : List ServiceTypeRow := []
  doctor_schedules : List ScheduleRow := []
  bookings : List BookingRow := []
  patient_insurance : List InsuranceRow := []
  payment_methods : List PaymentMethodRow := []
  cancellation_policies : List PolicyRow := []
  blocked_slots : List BlockedSlotRow := []
  cancellation_fees : List FeeRow := []
  clinics : List String := []
deriving Repr

/-! ## DoctorAvailabilityService

From `doctor-availability-service.ts`.  The read-through cache is modelled as
a permanent miss (it only ever returns a value previously computed by the same
function). -/

/-- An ephemeral time slot (`TimeSlot` interface); `time` is minutes since
midnight. -/
structure TimeSlot where
  time : Int
  available : Bool
  doctorId : String
  serviceTypeId : Option String
deriving DecidableEq, Repr

/-- `DoctorAvailability` result record. -/
structure DoctorAvailability where
  doctorId : String
  /-- requested calendar day (epoch day number) -/
  date : Int
  timeSlots : List TimeSlot
deriving DecidableEq, Repr

/-- `getDoctorSchedules`: active schedules of the doctor for the day of week,
optionally narrowed to a service type (a schedule with `NULL` service type
matches every service type), ordered by `start_time`. -/
def getDoctorSchedules (db : Db) (doctorId : String) (dayOfWeek : Int)
    (serviceTypeId : Option String) : List ScheduleRow :=
  let rows := db.doctor_schedules.filter fun s =>
    decide (s.doctor_id = doctorId) && decide (s.day_of_week = dayOfWeek) &&
      s.is_active &&
      (match serviceTypeId with
       | none => true
       | some st =>
           decide (s.service_type_id = some st) ||
             decide (s.service_type_id = none))
  sortBy (fun a b => a.start_time ≤ b.start_time) rows

/-- `getBookingsForDate`: non-terminal bookings of the doctor whose
appointment time lies in `[date 00:00:00, date 23:59:59]`. -/
def getBookingsForDate (db : Db) (doctorId : String) (date : Int) :
    List BookingRow :=
  db.bookings.filter fun b =>
    decide (b.doctor_id = doctorId) &&
      decide (date * msPerDay ≤ b.appointment_time) &&
      decide (b.appointment_time ≤ date * msPerDay + 86399000) &&
      (decide (b.status = .pending) || decide (b.status = .confirmed))

/-- Slot start times of one schedule window: `start_time`, stepping by
`slot_duration_minutes` while strictly before `end_time`.  The source's
`while` loop does not terminate for a non-positive slot duration; that case is
embedded as the empty list (no claim touches it). -/
def slotTimes (startTime endTime step : Int) : List Int :=
  if step ≤ 0 then []
  else (List.range ((endTime - startTime + step - 1) / step).toNat).map
    fun i => startTime + step * i

/-- `generateTimeSlots`: candidate slots of every schedule window, marked
unavailable when their "HH:mm" time matches a loaded booking or, on the
queried day itself, when they start within one hour from `now`; sorted by
time of day. -/
def generateTimeSlots (schedules : List ScheduleRow)
    (bookings : List BookingRow) (date : Int) (now : Int) : List TimeSlot :=
  let bookedTimes := bookings.map fun b => minuteOf b.appointment_time
  let isToday := dayOf now = date
  let slots := schedules.flatMap fun s =>
    (slotTimes s.start_time s.end_time s.slot_duration_minutes).map fun t =>
      let available := decide (¬ t ∈ bookedTimes)
      let available :=
        if isToday ∧ available = true then
          decide (date * msPerDay + t * 60000 > now + 3600000)
        else available
      { time := t, available := available, doctorId := s.doctor_id,
        serviceTypeId := s.service_type_id }
  sortBy (fun a b => a.time ≤ b.time) slots

/-- `getDoctorAvailability` (cache miss path): compute the day's slots from
the doctor's schedules and the day's non-terminal bookings. -/
def getDoctorAvailability (db : Db) (doctorId : String) (date : Int)
    (serviceTypeId : Option String) (now : Int) : DoctorAvailability :=
  let dow := dayOfWeekOf date
  let schedules := getDoctorSchedules db doctorId dow serviceTypeId
  if schedules.isEmpty then
    { doctorId := doctorId, date := date, timeSlots := [] }
  else
    let bookings := getBookingsForDate db doctorId date
    { doctorId := doctorId, date := date,
      timeSlots := generateTimeSlots schedules bookings date now }

/-- `getDoctorAvailabilityRange`: throws `RangeTooLargeError` when the range
exceeds 30 days, else one `DoctorAvailability` per day from `startDate` to
`endDate` inclusive. -/
def getDoctorAvailabilityRange (db : Db) (doctorId : String)
    (startDate endDate : Int) (serviceTypeId : Option String) (now : Int) :
    Except String (List DoctorAvailability) :=
  let daysDiff := endDate - startDate
  if daysDiff > 30 then
    .error "Date range cannot exceed 30 days"
  else
    .ok <| (List.range (daysDiff + 1).toNat).map fun i =>
      getDoctorAvailability db doctorId (startDate + i) serviceTypeId now

/-- An entry of the `searchAvailableDoctors` result. -/
structure DoctorSearchEntry where
  doctorId : String
  availableSlots : List TimeSlot
deriving DecidableEq, Repr

/-- The slot filter of `searchAvailableDoctors`: available and, when a
preferred time (minutes since midnight) is given, within 60 minutes of it. -/
def slotMatchesSearch (preferredTime : Option Int) (s : TimeSlot) : Bool :=
  s.available &&
    (match preferredTime with
     | none => true
     | some p => decide ((s.time - p).natAbs ≤ 60))

/-- `searchAvailableDoctors`: for every active doctor of the clinic, filter
that day's slots; doctors with no remaining slot are skipped; the result is
ordered by descending number of available slots. -/
def searchAvailableDoctors (db : Db) (clinicId : String) (date : Int)
    (serviceTypeId : Option String) (preferredTime : Option Int) (now : Int) :
    List DoctorSearchEntry :=
  let doctors := db.doctors.filter fun d =>
    decide (d.clinic_id = clinicId) && d.is_active
  let entries := doctors.filterMap fun d =>
    let availability := getDoctorAvailability db d.id date serviceTypeId now
    let availableSlots :=
      availability.timeSlots.filter (slotMatchesSearch preferredTime)
    if availableSlots.length > 0 then
      some { doctorId := d.id, availableSlots := availableSlots }
    else
      none
  sortBy (fun a b => b.availableSlots.length ≤ a.availableSlots.length) entries

/-! ## BookingValidator

From `booking-validator.ts`.  Each thrown `Error` becomes a constructor of
`VError`; the two "time window" errors of `validateTimeSlot` are the spec's
`OutOfWindow` taxonomy entry. -/

/-- The errors `BookingValidator` can throw. -/
inductive VError
  | schemaInvalid
  | doctorNotFound
  | doctorNotActive
  | patientNotFound
  | patientNotActive
  | serviceTypeNotFound
  | serviceTypeNotActive
  | serviceNotOffered
  /-- "Doctor is not available at this time" -/
  | doctorNotAvailable
  /-- "This time slot is already booked" -/
  | slotAlreadyBooked
  /-- "Cannot book appointments more than 3 months in advance" -/
  | tooFarInAdvance
  /-- "Appointments must be booked at least 1 hour in advance" -/
  | tooSoon
  | paymentMethodNotFound
  | paymentMethodNotActive
  | insuranceNotFound
  | insuranceNotActive
  | insuranceExpired
deriving DecidableEq, Repr

/-- The spec's `OutOfWindow` error class: the two temporal-window rejections
of `validateTimeSlot`. -/
def VError.isOutOfWindow : VError → Bool
  | .tooFarInAdvance => true
  | .tooSoon => true
  | _ => false

/-- `CreateBookingInput` (the fields the embedded checks read). -/
structure CreateBookingInput where
  patientId : String
  doctorId : String
  serviceTypeId : String
  /-- scheduled time, epoch milliseconds -/
  appointmentTime : Int
  paymentMethodId : Option String := none
  insuranceId : Option String := none
deriving DecidableEq, Repr

/-- `validateDoctor`: the doctor exists and is active. -/
def validateDoctor (db : Db) (doctorId : String) : Except VError Unit :=
  match db.doctors.find? (fun d => decide (d.id = doctorId)) with
  | none => .error .doctorNotFound
  | some d => if d.is_active then .ok () else .error .doctorNotActive

/-- `validatePatient`: the patient exists and is active. -/
def validatePatient (db : Db) (patientId : String) : Except VError Unit :=
  match db.patients.find? (fun p => decide (p.id = patientId)) with
  | none => .error .patientNotFound
  | some p => if p.is_active then .ok () else .error .patientNotActive

/-- `validateServiceType`: the service type exists and is active, and the
doctor has an active schedule for exactly that service type. -/
def validateServiceType (db : Db) (serviceTypeId doctorId : String) :
    Except VError Unit :=
  match db.service_types.find? (fun s => decide (s.id = serviceTypeId)) with
  | none => .error .serviceTypeNotFound
  | some s =>
      if ¬ s.is_active then .error .serviceTypeNotActive
      else if db.doctor_schedules.any (fun ds =>
          decide (ds.doctor_id = doctorId) &&
            decide (ds.service_type_id = some serviceTypeId) && ds.is_active)
      then .ok ()
      else .error .serviceNotOffered

/-- The schedule-window query of `validateTimeSlot`: active schedules of the
doctor covering the appointment's day of week and "HH:mm" time. -/
def scheduleMatches (db : Db) (doctorId : String) (appointmentTime : Int) :
    List ScheduleRow :=
  let dow := dayOfWeekOf (dayOf appointmentTime)
  let tMin := minuteOf appointmentTime
  db.doctor_schedules.filter fun s =>
    decide (s.doctor_id = doctorId) && decide (s.day_of_week = dow) &&
      s.is_active && decide (s.start_time ≤ tMin) && decide (tMin < s.end_time)

/-- The conflict query of `validateTimeSlot`: non-terminal bookings of the
doctor at the exact timestamp, optionally excluding one booking id. -/
def conflictingBookings (db : Db) (doctorId : String) (appointmentTime : Int)
    (excludeBookingId : Option String) : List BookingRow :=
  db.bookings.filter fun b =>
    decide (b.doctor_id = doctorId) &&
      decide (b.appointment_time = appointmentTime) &&
      (decide (b.status = .confirmed) || decide (b.status = .pending)) &&
      (match excludeBookingId with
       | none => true
       | some e => decide (¬ b.id = e))

/-- `validateTimeSlot`: schedule-window match, conflict check against
non-terminal bookings at the exact timestamp (optionally excluding one
booking id), then the 3-month and 1-hour window checks, in source order. -/
def validateTimeSlot (db : Db) (doctorId : String) (appointmentTime now : Int)
    (excludeBookingId : Option String) : Except VError Unit :=
  if (scheduleMatches db doctorId appointmentTime).isEmpty then
    .error .doctorNotAvailable
  else if ¬ (conflictingBookings db doctorId appointmentTime
      excludeBookingId).isEmpty then
    .error .slotAlreadyBooked
  else if appointmentTime > addThreeMonths now then .error .tooFarInAdvance
  else if appointmentTime < now + 3600000 then .error .tooSoon
  else .ok ()

/-- `validatePaymentMethod`: belongs to the patient and is active. -/
def validatePaymentMethod (db : Db) (paymentMethodId patientId : String) :
    Except VError Unit :=
  match db.payment_methods.find? (fun m =>
      decide (m.id = paymentMethodId) && decide (m.patient_id = patientId)) with
  | none => .error .paymentMethodNotFound
  | some m => if m.is_active then .ok () else .error .paymentMethodNotActive

/-- `validateInsurance`: belongs to the patient, is active, and is not
expired. -/
def validateInsurance (db : Db) (insuranceId patientId : String) (now : Int) :
    Except VError Unit :=
  match db.patient_insurance.find? (fun r =>
      decide (r.id = insuranceId) && decide (r.patient_id = patientId)) with
  | none => .error .insuranceNotFound
  | some r =>
      if ¬ r.is_active then .error .insuranceNotActive
      else
        match r.expiry_date with
        | some e => if e < now then .error .insuranceExpired else .ok ()
        | none => .ok ()

/-- `validateCreateBooking`: the schema's temporal constraint
(`appointmentTime` strictly after `now`; the string-shape constraints do not
affect the modelled fields) followed by the business checks.  The source runs
the checks under `Promise.all`; success means all of them pass. -/
def validateCreateBooking (db : Db) (input : CreateBookingInput) (now : Int) :
    Except VError Unit := do
  if input.appointmentTime ≤ now then throw .schemaInvalid
  validateDoctor db input.doctorId
  validatePatient db input.patientId
  validateServiceType db input.serviceTypeId input.doctorId
  validateTimeSlot db input.doctorId input.appointmentTime now none
  match input.paymentMethodId with
  | some pm => validatePaymentMethod db pm input.patientId
  | none => pure ()
  match input.insuranceId with
  | some ins => validateInsurance db ins input.patientId now
  | none => pure ()

/-- The errors `validateCancellation` / `cancelBooking` can produce. -/
inductive CancelError
  | bookingNotFound
  | unauthorized
  /-- "Cannot cancel booking with status: ..." -/
  | invalidState (status : BookingStatus)
  /-- `cancelBooking`'s guard on a `canCancel: false` validation result -/
  | cannotCancel
deriving DecidableEq, Repr

/-- The caller's role, `'patient' | 'doctor'`. -/
inductive UserType
  | patient | doctor
deriving DecidableEq, Repr

/-- The object `validateCancellation` resolves with. -/
structure CancelValidation where
  booking : BookingRow
  canCancel : Bool
  requiresPenalty : Bool
  penaltyPercentage : ℚ
deriving DecidableEq, Repr

/-- The policy query of `validateCancellation`: active cancellation policies
of the clinic the doctor belongs to. -/
def activePoliciesFor (db : Db) (doctorId : String) : List PolicyRow :=
  db.cancellation_policies.filter fun p =>
    p.is_active && db.doctors.any (fun d =>
      decide (d.id = doctorId) && decide (d.clinic_id = p.clinic_id))

/-- `validateCancellation`: booking exists, caller owns it (patient) or is
assigned to it (doctor), status is non-terminal; then the clinic's active
cancellation policy decides the penalty.  The policy fields are read with JS
semantics: a missing `minimum_hours_notice` makes the comparison false, and
`penalty_percentage || 0` defaults to `0`. -/
def validateCancellation (db : Db) (bookingId userId : String)
    (userType : UserType) (now : Int) : Except CancelError CancelValidation :=
  match db.bookings.find? (fun b => decide (b.id = bookingId)) with
  | none => .error .bookingNotFound
  | some booking =>
      if userType = .patient ∧ booking.patient_id ≠ userId then
        .error .unauthorized
      else if userType = .doctor ∧ booking.doctor_id ≠ userId then
        .error .unauthorized
      else if ¬ (booking.status = .pending ∨ booking.status = .confirmed) then
        .error (.invalidState booking.status)
      else
        let hoursUntilAppointment : ℚ :=
          ((booking.appointment_time : ℚ) - (now : ℚ)) / (1000 * 60 * 60)
        match activePoliciesFor db booking.doctor_id with
        | policy :: _ =>
            if jsLtOpt hoursUntilAppointment policy.minimum_hours_notice then
              .ok { booking := booking, canCancel := true,
                    requiresPenalty := true,
                    penaltyPercentage := jsOrDefault policy.penalty_percentage 0 }
            else
              .ok { booking := booking, canCancel := true,
                    requiresPenalty := false, penaltyPercentage := 0 }
        | [] =>
            .ok { booking := booking, canCancel := true,
                  requiresPenalty := false, penaltyPercentage := 0 }

/-! ## BookingService

From `booking-service.ts`.  `createBooking` returns the inserted row;
`cancelBooking` returns the updated store together with the outcome, so that
rollback ("no partial state on failure") is expressible. -/

/-- `createBooking`: validate, price the service (splitting by the insurance
coverage percentage when an insurance id was supplied and the service is
insurance-covered), and insert the `pending` booking row. -/
def createBooking (db : Db) (input : CreateBookingInput) (now : Int)
    (bookingId : String) : Except VError BookingRow := do
  validateCreateBooking db input now
  let amounts : ℚ × ℚ × ℚ :=
    match db.service_types.find? (fun s => decide (s.id = input.serviceTypeId)) with
    | none => (0, 0, 0)
    | some service =>
        let totalAmount := jsOrDefault service.base_price 0
        match input.insuranceId, service.insurance_covered with
        | some iid, true =>
            (match db.patient_insurance.find? (fun r => decide (r.id = iid)) with
             | some ins =>
                 let coveragePercentage :=
                   jsOrDefault ins.coverage_percentage 70
                 let insuranceCoveredAmount :=
                   totalAmount * coveragePercentage / 100
                 (totalAmount, insuranceCoveredAmount,
                   totalAmount - insuranceCoveredAmount)
             | none => (totalAmount, 0, 0))
        | _, _ => (totalAmount, 0, totalAmount)
  .ok { id := bookingId, patient_id := input.patientId,
        doctor_id := input.doctorId, service_type_id := input.serviceTypeId,
        appointment_time := input.appointmentTime, status := .pending,
        payment_method_id := input.paymentMethodId,
        insurance_id := input.insuranceId, total_amount := amounts.1,
        insurance_covered_amount := amounts.2.1,
        patient_payment_amount := amounts.2.2 }

/-- `listBookings` filters. -/
structure ListFilters where
  status : Option BookingStatus := none
  startDate : Option Int := none
  endDate : Option Int := none
  limit : Option Int := none
  offset : Option Int := none
deriving DecidableEq, Repr

/-- The effective `LIMIT` of `listBookings`: `filters?.limit || 20` (JS falsy
`0`/absent fall back to 20; any other value, however large or negative, is
used as supplied). -/
def effectiveLimit (filters : ListFilters) : Int :=
  match filters.limit with
  | none => 20
  | some l => if l = 0 then 20 else l

/-- The effective `OFFSET` of `listBookings`: `filters?.offset || 0`. -/
def effectiveOffset (filters : ListFilters) : Int :=
  match filters.offset with
  | none => 0
  | some o => o

/-- `listBookings`: rows of the caller (their own bookings as patient, their
assigned ones as doctor) that survive the joins and optional status/date
filters, ordered by appointment time descending, paginated by the effective
limit/offset.  PostgreSQL rejects a negative `LIMIT`/`OFFSET`, which is the
error case. -/
def listBookings (db : Db) (userId : String) (userType : UserType)
    (filters : ListFilters) : Except String (List BookingRow × Nat) :=
  let rows := db.bookings.filter fun b =>
    db.patients.any (fun p => decide (p.id = b.patient_id)) &&
      db.doctors.any (fun d =>
        decide (d.id = b.doctor_id) &&
          db.clinics.any (fun c => decide (c = d.clinic_id))) &&
      db.service_types.any (fun s => decide (s.id = b.service_type_id)) &&
      (match userType with
       | .patient => decide (b.patient_id = userId)
       | .doctor => decide (b.doctor_id = userId)) &&
      (match filters.status with
       | none => true
       | some st => decide (b.status = st)) &&
      (match filters.startDate with
       | none => true
       | some sd => decide (b.appointment_time ≥ sd)) &&
      (match filters.endDate with
       | none => true
       | some ed => decide (b.appointment_time ≤ ed))
  let total := rows.length
  let sorted := sortBy (fun a b => b.appointment_time ≤ a.appointment_time) rows
  let limit := effectiveLimit filters
  let offset := effectiveOffset filters
  if limit < 0 then .error "LIMIT must not be negative"
  else if offset < 0 then .error "OFFSET must not be negative"
  else .ok ((sorted.drop offset.toNat).take limit.toNat, total)

/-- `cancelBooking`: run cancellation validation; on success mark the booking
cancelled (reason/actor/timestamp) and, when a penalty with a positive
percentage was signaled, insert a cancellation-fee row of
`patient_payment_amount × penaltyPercentage / 100`.  A validation failure
leaves the store untouched. -/
def cancelBooking (db : Db) (bookingId reason userId : String)
    (userType : UserType) (now : Int) : Db × Except CancelError BookingRow :=
  match validateCancellation db bookingId userId userType now with
  | .error e => (db, .error e)
  | .ok v =>
      if ¬ v.canCancel then (db, .error .cannotCancel)
      else
        let updated : BookingRow :=
          { v.booking with
            status := .cancelled
            cancellation_reason := some reason
            cancelled_at := some now
            cancelled_by := some userId }
        let db1 := { db with bookings := db.bookings.map fun b =>
          if b.id = bookingId then updated else b }
        let db2 :=
          if v.requiresPenalty ∧ v.penaltyPercentage > 0 then
            { db1 with cancellation_fees := db1.cancellation_fees ++
              [{ booking_id := bookingId,
                 amount := updated.patient_payment_amount *
                   v.penaltyPercentage / 100,
                 percentage := v.penaltyPercentage }] }
          else db1
        (db2, .ok updated)

/-! ## RateLimiter

From the rate-limit middleware: per-endpoint fixed-window counting.  The
fast-cache counter is modelled as the shared state (the DynamoDB fallback
follows the identical keying and arithmetic and only matters when the cache
is down); `expire` only bounds the lifetime of a window's key, which never
influences a decision because every window uses its own key. -/

/-- A `RateLimitConfig` entry ({windowMs, maxRequests}). -/
structure RLConfig where
  windowMs : Int
  maxRequests : Nat
deriving DecidableEq, Repr

/-- `DEFAULT_CONFIG` merged with the `RATE_LIMITS` table. -/
def rateLimitConfig (endpoint : String) : RLConfig :=
  if endpoint = "POST /bookings" then ⟨60000, 10⟩
  else if endpoint = "GET /bookings" then ⟨60000, 30⟩
  else if endpoint = "POST /auth/login" then ⟨300000, 5⟩
  else if endpoint = "POST /payments" then ⟨60000, 5⟩
  else if endpoint = "POST /line/webhook" then ⟨1000, 10⟩
  else ⟨60000, 10⟩

/-- Counter store: count per (identifier, endpoint, window-start) key. -/
def RLState : Type := String × String × Int → Nat

/-- Outcome of `checkRateLimit`: `null` (allowed) or a 429 with
`retryAfter` seconds. -/
inductive RLResult
  | allowed
  | denied (retryAfter : Int)
deriving DecidableEq, Repr

/-- `checkRateLimit` (cache available): fixed window
`floor(now / windowMs) · windowMs`, atomic increment of the window's key,
denial with `retryAfter = ceil((window_end − now) / 1000)` when the count
exceeds `maxRequests`. -/
def checkRateLimit (st : RLState) (identifier endpoint : String) (now : Int) :
    RLState × RLResult :=
  let config := rateLimitConfig endpoint
  let window := now / config.windowMs * config.windowMs
  let key := (identifier, endpoint, window)
  let count := st key + 1
  let st' : RLState := fun k => if k = key then count else st k
  if count > config.maxRequests then
    (st', .denied (ceilDiv1000 (window + config.windowMs - now)))
  else
    (st', .allowed)

/-- Run `checkRateLimit` for one identity/endpoint at a list of timestamps,
collecting the decisions. -/
def runRateLimiter (st : RLState) (identifier endpoint : String) :
    List Int → RLState × List RLResult
  | [] => (st, [])
  | t :: ts =>
      let step := checkRateLimit st identifier endpoint t
      let rest := runRateLimiter step.1 identifier endpoint ts
      (rest.1, step.2 :: rest.2)

/-! ## TokenBucket

From `booking-service.ts` (`export class TokenBucket`): per-process bucket
with lazy refill from elapsed time.  Timestamps (`Date.now()`) are rationals
so that `timePassed / 1000 * refillRate` is exact. -/

/-- The `TokenBucket` state. -/
structure TokenBucket where
  capacity : ℚ
  refillRate : ℚ
  tokens : ℚ
  lastRefill : ℚ
deriving DecidableEq, Repr

/-- The constructor: a full bucket stamped with the current time. -/
def TokenBucket.init (capacity refillRate now : ℚ) : TokenBucket :=
  { capacity := capacity, refillRate := refillRate, tokens := capacity,
    lastRefill := now }

/-- `refill()`: add `(elapsed ms / 1000) · refillRate` tokens, capped at
capacity, and stamp the refill time. -/
def TokenBucket.refill (b : TokenBucket) (now : ℚ) : TokenBucket :=
  let timePassed := now - b.lastRefill
  let tokensToAdd := timePassed / 1000 * b.refillRate
  { b with
    tokens := min b.capacity (b.tokens + tokensToAdd)
    lastRefill := now }

/-- `consume(n)`: refill, then take `n` tokens if at least `n` are
available. -/
def TokenBucket.consume (b : TokenBucket) (n now : ℚ) : Bool × TokenBucket :=
  let b' := b.refill now
  if b'.tokens ≥ n then (true, { b' with tokens := b'.tokens - n })
  else (false, b')

/-- `getAvailableTokens()`: refill, then report `Math.floor(tokens)`. -/
def TokenBucket.getAvailableTokens (b : TokenBucket) (now : ℚ) :
    Int × TokenBucket :=
  let b' := b.refill now
  (⌊b'.tokens⌋, b')

/-- A call against the bucket, stamped with its `Date.now()` value. -/
inductive BucketOp
  | consume (n t : ℚ)
  | getAvail (t : ℚ)
deriving DecidableEq, Repr

/-- The timestamp of a call. -/
def BucketOp.time : BucketOp → ℚ
  | .consume _ t => t
  | .getAvail t => t

/-- Run a sequence of calls, keeping the final bucket state. -/
def runBucket (b : TokenBucket) : List BucketOp → TokenBucket
  | [] => b
  | .consume n t :: ops => runBucket (b.consume n t).2 ops
  | .getAvail t :: ops => runBucket (b.getAvailableTokens t).2 ops

/-- Well-formed call sequences from time `t`: timestamps are nondecreasing
(real time moves forward) and consumed token counts are nonnegative. -/
def ValidOps (t : ℚ) : List BucketOp → Prop
  | [] => True
  | op :: ops =>
      t ≤ op.time ∧
        (match op with
         | .consume n _ => 0 ≤ n
         | .getAvail _ => True) ∧
        ValidOps op.time ops

/-! ## Claim C8: 30-day bound of `getDoctorAvailabilityRange` -/

/-- C8: `getDoctorAvailabilityRange` fails with `RangeTooLargeError` exactly
when `end − start` exceeds 30 days, and otherwise returns one per-day
availability result for each day from `start` to `end` inclusive. -/
theorem availabilityRange_thirty_day_bound (db : Db) (doctorId : String)
    (startDate endDate : Int) (serviceTypeId : Option String) (now : Int) :
    ((∃ e, getDoctorAvailabilityRange db doctorId startDate endDate
        serviceTypeId now = .error e) ↔ endDate - startDate > 30) ∧
    (endDate - startDate ≤ 30 →
      getDoctorAvailabilityRange db doctorId startDate endDate serviceTypeId
          now =
        .ok ((List.range (endDate - startDate + 1).toNat).map fun i =>
          getDoctorAvailability db doctorId (startDate + (i : Int))
            serviceTypeId now)) := by
  by_cases h : endDate - startDate > 30
  · constructor
    · simp [getDoctorAvailabilityRange, h]
    · intro hle
      omega
  · constructor
    · simp [getDoctorAvailabilityRange, h]
    · intro _
      simp [getDoctorAvailabilityRange, h]

/-- Witness for C8: on the empty store, a 31-day range is rejected and a
30-day range yields 31 per-day results. -/
theorem availabilityRange_thirty_day_bound_witness :
    (∃ e, getDoctorAvailabilityRange {} "D" 0 31 none 0 = .error e) ∧
    getDoctorAvailabilityRange {} "D" 0 30 none 0 =
      .ok ((List.range 31).map fun i =>
        getDoctorAvailability {} "D" (0 + (i : Int)) none 0) := by
  constructor
  · exact (availabilityRange_thirty_day_bound {} "D" 0 31 none 0).1.mpr
      (by norm_num)
  · have h := (availabilityRange_thirty_day_bound {} "D" 0 30 none 0).2
      (by norm_num)
    simpa using h

/-! ## Claim C10: `searchAvailableDoctors` returns only non-empty entries -/

/-- C10: every entry returned by `searchAvailableDoctors` has a non-empty
`availableSlots` list, and each listed slot is available and passes the
optional ±60-minute preferred-time filter; a doctor with no matching slot is
therefore never listed. -/
theorem searchAvailableDoctors_nonempty_slots (db : Db) (clinicId : String)
    (date : Int) (serviceTypeId : Option String) (preferredTime : Option Int)
    (now : Int) :
    ∀ e ∈ searchAvailableDoctors db clinicId date serviceTypeId preferredTime
        now,
      e.availableSlots ≠ [] ∧
        ∀ s ∈ e.availableSlots, s.available = true ∧
          slotMatchesSearch preferredTime s = true := by
  intro e he
  simp only [searchAvailableDoctors, mem_sortBy, List.mem_filterMap] at he
  obtain ⟨d, _, hde⟩ := he
  by_cases hpos :
      ((getDoctorAvailability db d.id date serviceTypeId now).timeSlots.filter
        (slotMatchesSearch preferredTime)).length > 0
  · rw [if_pos hpos] at hde
    obtain rfl := Option.some.inj hde
    refine ⟨?_, ?_⟩
    · intro hnil
      have hnil' : ((getDoctorAvailability db d.id date serviceTypeId
          now).timeSlots.filter (slotMatchesSearch preferredTime)) = [] := hnil
      rw [hnil'] at hpos
      simp at hpos
    · intro s hs
      have hmem := List.mem_filter.mp hs
      refine ⟨?_, hmem.2⟩
      have h2 := hmem.2
      simp only [slotMatchesSearch, Bool.and_eq_true] at h2
      exact h2.1
  · rw [if_neg hpos] at hde
    exact Option.noConfusion hde

/-- Store for the C10 witness: one active doctor with a Monday 09:00–10:00
schedule in 30-minute slots. -/
def dbC10 : Db :=
  { doctors := [⟨"D1", "C1", true⟩]
    doctor_schedules := [⟨"s1", "D1", 1, 540, 600, 30, none, true⟩] }

/-- The entry the C10 witness exhibits. -/
def entryC10 : DoctorSearchEntry :=
  ⟨"D1", [⟨540, true, "D1", none⟩, ⟨570, true, "D1", none⟩]⟩

/-- Witness for C10: a concrete search result entry, with the theorem's
conclusions instantiated on it. -/
theorem searchAvailableDoctors_nonempty_slots_witness :
    entryC10 ∈ searchAvailableDoctors dbC10 "C1" 4 none none 0 ∧
      (entryC10.availableSlots ≠ [] ∧
        ∀ s ∈ entryC10.availableSlots, s.available = true ∧
          slotMatchesSearch none s = true) :=
  ⟨by decide,
    searchAvailableDoctors_nonempty_slots dbC10 "C1" 4 none none 0 entryC10
      (by decide)⟩

/-! ## Claim C1: blocked slots and availability

The availability computation (`getDoctorAvailability` / `generateTimeSlots`)
and `validateTimeSlot` never query the `blocked_slots` table — the only reads
of that table in the repository are the writes in
`blockTimeSlots`/`unblockTimeSlots`.  A blocked instant is therefore returned
as available and accepted for booking. -/

/-- Store for the C1 failing input: an active doctor with a Monday
09:00–12:00 schedule (30-minute slots), no bookings, and a `blocked_slots`
row at Monday 1970-01-05 10:00. -/
def dbC1 : Db :=
  { doctors := [⟨"D1", "C1", true⟩]
    doctor_schedules := [⟨"s1", "D1", 1, 540, 720, 30, none, true⟩]
    blocked_slots := [⟨"D1", 4 * msPerDay + 600 * 60000⟩] }

/-- C1 (refuted; the code ignores blocked slots): availability and
slot validation are invariant under arbitrary changes to `blocked_slots`,
and on `dbC1` the blocked 10:00 instant is returned as an available slot and
accepted by `validateTimeSlot`. -/
theorem blocked_slots_ignored :
    (∀ (db : Db) (bs : List BlockedSlotRow) (doctorId : String) (date : Int)
        (serviceTypeId : Option String) (now : Int),
      getDoctorAvailability { db with blocked_slots := bs } doctorId date
          serviceTypeId now =
        getDoctorAvailability db doctorId date serviceTypeId now) ∧
    (∀ (db : Db) (bs : List BlockedSlotRow) (doctorId : String) (t now : Int)
        (ex : Option String),
      validateTimeSlot { db with blocked_slots := bs } doctorId t now ex =
        validateTimeSlot db doctorId t now ex) ∧
    dayOf (4 * msPerDay + 600 * 60000) = 4 ∧
    minuteOf (4 * msPerDay + 600 * 60000) = 600 ∧
    dbC1.blocked_slots = [⟨"D1", 4 * msPerDay + 600 * 60000⟩] ∧
    (⟨600, true, "D1", none⟩ : TimeSlot) ∈
      (getDoctorAvailability dbC1 "D1" 4 none 0).timeSlots ∧
    validateTimeSlot dbC1 "D1" (4 * msPerDay + 600 * 60000) (4 * msPerDay)
        none = .ok () :=
  ⟨fun _ _ _ _ _ _ => rfl, fun _ _ _ _ _ _ => rfl, by decide, by decide, rfl,
    by decide, rfl⟩

/-! ## Claim C4: the 1-hour / 3-month booking window -/

/-- C4: when the schedule and conflict checks pass, `validateTimeSlot` fails
with an `OutOfWindow` error exactly when the scheduled time is less than one
hour after `now` or more than three calendar months after `now`, and
succeeds exactly when it lies within that window. -/
theorem validateTimeSlot_time_window (db : Db) (doctorId : String)
    (appointmentTime now : Int)
    (hsched : scheduleMatches db doctorId appointmentTime ≠ [])
    (hconf : conflictingBookings db doctorId appointmentTime none = []) :
    (validateTimeSlot db doctorId appointmentTime now none = .ok () ↔
      now + 3600000 ≤ appointmentTime ∧
        appointmentTime ≤ addThreeMonths now) ∧
    ((∃ e, validateTimeSlot db doctorId appointmentTime now none = .error e ∧
        e.isOutOfWindow = true) ↔
      (appointmentTime < now + 3600000 ∨
        appointmentTime > addThreeMonths now)) := by
  have h1 : (scheduleMatches db doctorId appointmentTime).isEmpty = false := by
    cases hl : scheduleMatches db doctorId appointmentTime with
    | nil => exact absurd hl hsched
    | cons _ _ => rfl
  have h2 : (conflictingBookings db doctorId appointmentTime none).isEmpty =
      true := by
    rw [hconf]
    rfl
  unfold validateTimeSlot
  rw [h1, h2]
  rw [if_neg (by simp), if_neg (by simp)]
  split_ifs with hfar hsoon
  · constructor
    · constructor
      · intro h
        exact absurd h (by simp)
      · rintro ⟨-, h2⟩
        omega
    · constructor
      · intro _
        exact Or.inr hfar
      · intro _
        exact ⟨.tooFarInAdvance, rfl, rfl⟩
  · constructor
    · constructor
      · intro h
        exact absurd h (by simp)
      · rintro ⟨h1, -⟩
        omega
    · constructor
      · intro _
        exact Or.inl hsoon
      · intro _
        exact ⟨.tooSoon, rfl, rfl⟩
  · constructor
    · constructor
      · intro _
        exact ⟨by omega, by omega⟩
      · intro _
        rfl
    · constructor
      · rintro ⟨e, he, -⟩
        exact absurd he (by simp)
      · intro h
        omega

/-- Store for the C4 witness: a schedule covering all of Monday. -/
def dbC4 : Db :=
  { doctor_schedules := [⟨"s1", "D1", 1, 0, 1440, 30, none, true⟩] }

/-- `now` for the C4 witness: Monday 1970-01-05 00:00. -/
def nowC4 : Int := 4 * msPerDay

/-- Witness for C4: at `now + 60m01s` validation succeeds; at `now + 59m59s`
it fails with an `OutOfWindow` error. -/
theorem validateTimeSlot_time_window_witness :
    validateTimeSlot dbC4 "D1" (nowC4 + 3601000) nowC4 none = .ok () ∧
    (∃ e, validateTimeSlot dbC4 "D1" (nowC4 + 3599000) nowC4 none =
        .error e ∧ e.isOutOfWindow = true) := by
  constructor
  · exact (validateTimeSlot_time_window dbC4 "D1" (nowC4 + 3601000) nowC4
      (by decide) (by decide)).1.mpr (by decide)
  · exact (validateTimeSlot_time_window dbC4 "D1" (nowC4 + 3599000) nowC4
      (by decide) (by decide)).2.mpr (by decide)

/-! ## Claim C5: cancelling a terminally-statused booking fails -/

/-- C5: for a booking whose status is neither `pending` nor `confirmed`
(in particular an already-cancelled one), cancellation validation by an
authorized actor fails with the invalid-state error, `cancelBooking` leaves
the store untouched, and for any actor whatsoever the cancellation fails
without modifying the store. -/
theorem cancellation_terminal_status (db : Db)
    (bookingId userId reason : String) (userType : UserType) (now : Int)
    (b : BookingRow)
    (hfind : db.bookings.find? (fun x => decide (x.id = bookingId)) = some b)
    (hterm : b.status ≠ .pending ∧ b.status ≠ .confirmed)
    (hauth : (userType = .patient → b.patient_id = userId) ∧
      (userType = .doctor → b.doctor_id = userId)) :
    validateCancellation db bookingId userId userType now =
      .error (.invalidState b.status) ∧
    cancelBooking db bookingId reason userId userType now =
      (db, .error (.invalidState b.status)) ∧
    (∀ (uid : String) (ut : UserType),
      (cancelBooking db bookingId reason uid ut now).1 = db ∧
        ∃ e, (cancelBooking db bookingId reason uid ut now).2 = .error e) := by
  have c3 : ¬ (b.status = .pending ∨ b.status = .confirmed) := by
    rintro (h | h)
    exacts [hterm.1 h, hterm.2 h]
  have hval : validateCancellation db bookingId userId userType now =
      .error (.invalidState b.status) := by
    have c1 : ¬ (userType = .patient ∧ b.patient_id ≠ userId) := by
      rintro ⟨h, hne⟩
      exact hne (hauth.1 h)
    have c2 : ¬ (userType = .doctor ∧ b.doctor_id ≠ userId) := by
      rintro ⟨h, hne⟩
      exact hne (hauth.2 h)
    simp only [validateCancellation, hfind, if_neg c1, if_neg c2, if_pos c3]
  refine ⟨hval, ?_, ?_⟩
  · simp only [cancelBooking, hval]
  · intro uid ut
    have hany : ∃ e, validateCancellation db bookingId uid ut now =
        .error e := by
      simp only [validateCancellation, hfind]
      by_cases k1 : ut = .patient ∧ b.patient_id ≠ uid
      · rw [if_pos k1]
        exact ⟨_, rfl⟩
      · rw [if_neg k1]
        by_cases k2 : ut = .doctor ∧ b.doctor_id ≠ uid
        · rw [if_pos k2]
          exact ⟨_, rfl⟩
        · rw [if_neg k2, if_pos c3]
          exact ⟨_, rfl⟩
    obtain ⟨e, he⟩ := hany
    refine ⟨?_, e, ?_⟩ <;> simp only [cancelBooking, he]

/-- The already-cancelled booking of the C5 witness. -/
def bookingC5 : BookingRow :=
  { id := "B1"
    patient_id := "P1"
    doctor_id := "D1"
    service_type_id := "S"
    appointment_time := 4 * msPerDay
    status := .cancelled }

/-- Store for the C5 witness: a single already-cancelled booking. -/
def dbC5 : Db := { bookings := [bookingC5] }

/-- Witness for C5: cancelling the already-cancelled booking `B1` (as its
owning patient) fails with the invalid-state error and leaves the store
unchanged. -/
theorem cancellation_terminal_status_witness :
    validateCancellation dbC5 "B1" "P1" .patient 0 =
      .error (.invalidState .cancelled) ∧
    cancelBooking dbC5 "B1" "nope" "P1" .patient 0 =
      (dbC5, .error (.invalidState .cancelled)) := by
  have h := cancellation_terminal_status dbC5 "B1" "P1" "nope" .patient 0
    bookingC5 rfl (by decide)
    ⟨fun _ => rfl, fun h => UserType.noConfusion h⟩
  exact ⟨h.1, h.2.1⟩

/-! ## Claim C2: the pricing invariant of `createBooking` -/

theorem except_bind_ok {ε α β : Type} (x : Except ε α) (f : α → Except ε β)
    (b : β) : (x >>= f) = .ok b ↔ ∃ a, x = .ok a ∧ f a = .ok b := by
  cases x with
  | error e =>
      simp only [Bind.bind, Except.bind]
      constructor
      · intro h
        exact Except.noConfusion h
      · rintro ⟨a, ha, -⟩
        exact Except.noConfusion ha
  | ok a =>
      simp only [Bind.bind, Except.bind]
      constructor
      · intro h
        exact ⟨a, rfl, h⟩
      · rintro ⟨a', ha, hf⟩
        obtain rfl := Except.ok.inj ha
        exact hf

theorem except_ok_bind {ε α β : Type} (a : α) (f : α → Except ε β) :
    ((Except.ok a : Except ε α) >>= f) = f a := rfl

/-- If create-validation succeeded and an insurance id was supplied, the
insurance check itself succeeded. -/
theorem validateCreateBooking_insurance_ok (db : Db)
    (input : CreateBookingInput) (now : Int) (iid : String)
    (hok : validateCreateBooking db input now = .ok ())
    (hins : input.insuranceId = some iid) :
    validateInsurance db iid input.patientId now = .ok () := by
  unfold validateCreateBooking at hok
  rw [hins] at hok
  by_cases hc : input.appointmentTime ≤ now
  · rw [if_pos hc] at hok
    exact absurd hok (by simp [except_bind_ok])
  · rw [if_neg hc] at hok
    cases hpm : input.paymentMethodId with
    | none =>
        simp only [hpm, except_bind_ok] at hok
        obtain ⟨-, -, -, -, -, -, -, -, -, -, -, -, hlast⟩ := hok
        exact hlast
    | some pm =>
        simp only [hpm, except_bind_ok] at hok
        obtain ⟨-, -, -, -, -, -, -, -, -, -, -, -, hlast⟩ := hok
        exact hlast

/-- If the insurance check succeeded, the pricing query (which looks the
insurance row up by id alone) finds a row. -/
theorem validateInsurance_find_ok (db : Db) (iid pid : String) (now : Int)
    (h : validateInsurance db iid pid now = .ok ()) :
    (db.patient_insurance.find? (fun r => decide (r.id = iid))).isSome := by
  unfold validateInsurance at h
  cases hf : db.patient_insurance.find? (fun r =>
      decide (r.id = iid) && decide (r.patient_id = pid)) with
  | none =>
      rw [hf] at h
      exact Except.noConfusion h
  | some r =>
      have hmem := List.mem_of_find?_eq_some hf
      have hpred := List.find?_some hf
      simp only [Bool.and_eq_true] at hpred
      rw [List.find?_isSome]
      exact ⟨r, hmem, hpred.1⟩

/-- C2: every booking returned by `createBooking` satisfies
`insurance_covered_amount + patient_payment_amount = total_amount`; the
insured split and the uninsured full-price branch both preserve it. -/
theorem createBooking_pricing_invariant (db : Db)
    (input : CreateBookingInput) (now : Int) (bookingId : String)
    (b : BookingRow) (h : createBooking db input now bookingId = .ok b) :
    b.insurance_covered_amount + b.patient_payment_amount = b.total_amount := by
  unfold createBooking at h
  rw [except_bind_ok] at h
  obtain ⟨a, hval, hmk⟩ := h
  cases a
  cases hserv : db.service_types.find?
      (fun s => decide (s.id = input.serviceTypeId)) with
  | none =>
      simp only [hserv] at hmk
      obtain rfl := (Except.ok.inj hmk).symm
      norm_num
  | some service =>
      simp only [hserv] at hmk
      cases hins : input.insuranceId with
      | none =>
          simp only [hins] at hmk
          obtain rfl := (Except.ok.inj hmk).symm
          norm_num
      | some iid =>
          cases hcov : service.insurance_covered with
          | false =>
              simp only [hins, hcov] at hmk
              obtain rfl := (Except.ok.inj hmk).symm
              norm_num
          | true =>
              simp only [hins, hcov] at hmk
              cases hfind : db.patient_insurance.find?
                  (fun r => decide (r.id = iid)) with
              | none =>
                  have hvi := validateCreateBooking_insurance_ok db input now
                    iid hval hins
                  have hsome := validateInsurance_find_ok db iid
                    input.patientId now hvi
                  rw [hfind] at hsome
                  exact absurd hsome (by simp)
              | some ins =>
                  simp only [hfind] at hmk
                  obtain rfl := (Except.ok.inj hmk).symm
                  ring

/-- Store for the C2 witness: active doctor, patient, insurance-covered
service priced 5000, and 70 %-coverage insurance. -/
def dbC2 : Db :=
  { doctors := [⟨"D1", "C1", true⟩]
    patients := [⟨"P1", true⟩]
    service_types := [⟨"S", true, some 5000, true⟩]
    doctor_schedules := [⟨"s1", "D1", 1, 0, 1440, 30, some "S", true⟩]
    patient_insurance := [⟨"I1", "P1", true, none, some 70⟩] }

/-- `now` of the C2 witness: Monday 1970-01-05 00:00. -/
def nowC2 : Int := 4 * msPerDay

/-- Input of the C2 witness: an insured booking two hours from `now`. -/
def inputC2 : CreateBookingInput :=
  { patientId := "P1"
    doctorId := "D1"
    serviceTypeId := "S"
    appointmentTime := nowC2 + 7200000
    insuranceId := some "I1" }

/-- The row the C2 witness expects `createBooking` to return: 5000 split
into 3500 insurance-covered and 1500 patient-paid. -/
def bookingC2 : BookingRow :=
  { id := "B1"
    patient_id := "P1"
    doctor_id := "D1"
    service_type_id := "S"
    appointment_time := nowC2 + 7200000
    status := .pending
    insurance_id := some "I1"
    total_amount := 5000
    insurance_covered_amount := 3500
    patient_payment_amount := 1500 }

/-- Witness for C2: the concrete insured creation succeeds and the theorem
yields its pricing invariant. -/
theorem createBooking_pricing_invariant_witness :
    createBooking dbC2 inputC2 nowC2 "B1" = .ok bookingC2 ∧
      bookingC2.insurance_covered_amount + bookingC2.patient_payment_amount =
        bookingC2.total_amount := by
  have hval : validateCreateBooking dbC2 inputC2 nowC2 = .ok () := rfl
  have hrun : createBooking dbC2 inputC2 nowC2 "B1" = .ok bookingC2 := by
    unfold createBooking
    rw [hval, except_ok_bind]
    have hserv : dbC2.service_types.find?
        (fun s => decide (s.id = inputC2.serviceTypeId)) =
          some ⟨"S", true, some 5000, true⟩ := rfl
    have hins : dbC2.patient_insurance.find?
        (fun r => decide (r.id = "I1")) =
          some ⟨"I1", "P1", true, none, some 70⟩ := rfl
    simp only [hserv, show inputC2.insuranceId = some "I1" from rfl, hins]
    simp only [bookingC2, BookingRow.mk.injEq, jsOrDefault]
    norm_num [inputC2]
  exact ⟨hrun, createBooking_pricing_invariant dbC2 inputC2 nowC2 "B1"
    bookingC2 hrun⟩

/-! ## Claim C6: the cancellation penalty

The claim says a short-notice cancellation always carries a penalty
percentage greater than 0.  The code returns
`penaltyPercentage = policy.penalty_percentage || 0`, so an active policy
whose configured percentage is 0 (or absent) yields a short-notice result
with `requiresPenalty = true` but a 0 percentage, and no fee row is
inserted. -/

/-- The confirmed booking of the C6 scenarios, 30 minutes before its
appointment at `now = 0`. -/
def bookingC6 : BookingRow :=
  { id := "B1"
    patient_id := "P1"
    doctor_id := "D1"
    service_type_id := "S"
    appointment_time := 1800000
    status := .confirmed
    patient_payment_amount := 1500 }

/-- Store of the C6 counterexample: an active policy requiring 24 hours of
notice but configured with a 0 % penalty. -/
def dbC6 : Db :=
  { doctors := [⟨"D1", "C1", true⟩]
    bookings := [bookingC6]
    cancellation_policies := [⟨"C1", true, some 24, some 0⟩] }

/-- The cancellation fees after `cancelBooking`: the incoming fee table,
extended by the booking's fee row exactly when the validation signaled a
penalty with a positive percentage. -/
theorem cancelBooking_fees (db : Db) (bookingId reason userId : String)
    (ut : UserType) (now : Int) (v : CancelValidation)
    (hv : validateCancellation db bookingId userId ut now = .ok v)
    (hcc : v.canCancel = true) :
    (cancelBooking db bookingId reason userId ut now).1.cancellation_fees =
      if v.requiresPenalty = true ∧ v.penaltyPercentage > 0 then
        db.cancellation_fees ++
          [⟨bookingId, v.booking.patient_payment_amount *
            v.penaltyPercentage / 100, v.penaltyPercentage⟩]
      else db.cancellation_fees := by
  simp only [cancelBooking, hv]
  rw [if_neg (by simp [hcc])]
  by_cases hp : v.requiresPenalty = true ∧ v.penaltyPercentage > 0
  · rw [if_pos hp, if_pos hp]
  · rw [if_neg hp, if_neg hp]

/-- Counterexample to C6: cancelling `B1` 30 minutes before the appointment
(far below the 24-hour notice threshold) yields a penalty percentage of 0,
not greater than 0, and `cancelBooking` inserts no cancellation-fee row. -/
theorem cancellation_penalty_zero_counterexample :
    validateCancellation dbC6 "B1" "P1" .patient 0 =
      .ok ⟨bookingC6, true, true, 0⟩ ∧
    (cancelBooking dbC6 "B1" "late" "P1" .patient 0).1.cancellation_fees =
      [] := by
  have hval : validateCancellation dbC6 "B1" "P1" .patient 0 =
      .ok ⟨bookingC6, true, true, 0⟩ := by
    simp only [validateCancellation,
      show dbC6.bookings.find? (fun x => decide (x.id = "B1")) =
        some bookingC6 from rfl,
      show activePoliciesFor dbC6 bookingC6.doctor_id =
        [⟨"C1", true, some 24, some 0⟩] from rfl]
    rw [if_neg (by simp [bookingC6]), if_neg (by simp), if_neg (by simp
      [bookingC6])]
    rw [if_pos (by norm_num [jsLtOpt, bookingC6])]
    norm_num [jsOrDefault]
  refine ⟨hval, ?_⟩
  rw [cancelBooking_fees dbC6 "B1" "late" "P1" .patient 0 _ hval rfl]
  rw [if_neg (by norm_num)]
  rfl

/-- C6 amended: with an active policy present, a short-notice cancellation
(in the JS sense: the policy's `minimum_hours_notice` is present and exceeds
the remaining hours) yields `requiresPenalty = true` with percentage
`penalty_percentage || 0` — positive only when the policy's configured
percentage is; otherwise the percentage is 0 with no penalty flag; and
`cancelBooking` appends the fee row `patientPaymentAmount × pct / 100`
exactly when a penalty with positive percentage was signaled. -/
theorem cancellation_penalty_policy (db : Db)
    (bookingId userId reason : String) (ut : UserType) (now : Int)
    (b : BookingRow) (policy : PolicyRow) (rest : List PolicyRow)
    (hfind : db.bookings.find? (fun x => decide (x.id = bookingId)) = some b)
    (hactive : b.status = .pending ∨ b.status = .confirmed)
    (hauth : (ut = .patient → b.patient_id = userId) ∧
      (ut = .doctor → b.doctor_id = userId))
    (hpol : activePoliciesFor db b.doctor_id = policy :: rest) :
    (jsLtOpt (((b.appointment_time : ℚ) - (now : ℚ)) / (1000 * 60 * 60))
        policy.minimum_hours_notice = true →
      validateCancellation db bookingId userId ut now =
        .ok ⟨b, true, true, jsOrDefault policy.penalty_percentage 0⟩) ∧
    (jsLtOpt (((b.appointment_time : ℚ) - (now : ℚ)) / (1000 * 60 * 60))
        policy.minimum_hours_notice = false →
      validateCancellation db bookingId userId ut now =
        .ok ⟨b, true, false, 0⟩) ∧
    (∀ v, validateCancellation db bookingId userId ut now = .ok v →
      (cancelBooking db bookingId reason userId ut now).1.cancellation_fees =
        if v.requiresPenalty ∧ v.penaltyPercentage > 0 then
          db.cancellation_fees ++
            [⟨bookingId, b.patient_payment_amount * v.penaltyPercentage / 100,
              v.penaltyPercentage⟩]
        else db.cancellation_fees) := by
  have c1 : ¬ (ut = .patient ∧ b.patient_id ≠ userId) := by
    rintro ⟨h, hne⟩
    exact hne (hauth.1 h)
  have c2 : ¬ (ut = .doctor ∧ b.doctor_id ≠ userId) := by
    rintro ⟨h, hne⟩
    exact hne (hauth.2 h)
  have c3 : ¬ ¬ (b.status = .pending ∨ b.status = .confirmed) :=
    not_not_intro hactive
  have hred : validateCancellation db bookingId userId ut now =
      (if jsLtOpt (((b.appointment_time : ℚ) - (now : ℚ)) / (1000 * 60 * 60))
          policy.minimum_hours_notice then
        .ok ⟨b, true, true, jsOrDefault policy.penalty_percentage 0⟩
      else .ok ⟨b, true, false, 0⟩) := by
    simp only [validateCancellation, hfind, if_neg c1, if_neg c2, if_neg c3,
      hpol]
  refine ⟨?_, ?_, ?_⟩
  · intro hjs
    rw [hred, if_pos hjs]
  · intro hjs
    rw [hred, if_neg (by rw [hjs]; exact fun h => Bool.noConfusion h)]
  · intro v hv
    have hv' := hv
    rw [hred] at hv'
    by_cases hjs : jsLtOpt (((b.appointment_time : ℚ) - (now : ℚ)) /
        (1000 * 60 * 60)) policy.minimum_hours_notice = true
    · rw [if_pos hjs] at hv'
      obtain rfl := (Except.ok.inj hv').symm
      rw [cancelBooking_fees db bookingId reason userId ut now _ hv rfl]
    · rw [if_neg hjs] at hv'
      obtain rfl := (Except.ok.inj hv').symm
      rw [cancelBooking_fees db bookingId reason userId ut now _ hv rfl]

/-- Store of the C6 witness: the same scenario with a 50 % penalty
configured. -/
def dbC6w : Db :=
  { doctors := [⟨"D1", "C1", true⟩]
    bookings := [bookingC6]
    cancellation_policies := [⟨"C1", true, some 24, some 50⟩] }

/-- Witness for C6 (amended): the short-notice cancellation yields a 50 %
penalty directive and inserts the 750 = 1500 × 50 / 100 fee row. -/
theorem cancellation_penalty_policy_witness :
    validateCancellation dbC6w "B1" "P1" .patient 0 =
      .ok ⟨bookingC6, true, true, 50⟩ ∧
    (cancelBooking dbC6w "B1" "late" "P1" .patient 0).1.cancellation_fees =
      [⟨"B1", 750, 50⟩] := by
  have h := cancellation_penalty_policy dbC6w "B1" "P1" "late" .patient 0
    bookingC6 ⟨"C1", true, some 24, some 50⟩ [] rfl (Or.inr rfl)
    ⟨fun _ => rfl, fun h => UserType.noConfusion h⟩ rfl
  have hjs : jsLtOpt (((bookingC6.appointment_time : ℚ) - ((0 : Int) : ℚ)) /
      (1000 * 60 * 60)) (some 24) = true := by
    norm_num [jsLtOpt, bookingC6]
  have hval := h.1 hjs
  have hok : jsOrDefault (some 50) 0 = 50 := by norm_num [jsOrDefault]
  rw [hok] at hval
  refine ⟨hval, ?_⟩
  have hfee := h.2.2 ⟨bookingC6, true, true, 50⟩ hval
  rw [hfee, if_pos (by norm_num)]
  norm_num [bookingC6, dbC6w]

/-! ## Claim C7: the pagination limit of `listBookings`

`listBookings` computes `limit = filters?.limit || 20` and passes it to the
query unchanged — nothing clamps it into 1–100. -/

/-- 101 bookings of one patient with one doctor, at distinct times. -/
def bookingsC7 : List BookingRow :=
  (List.range 101).map fun i =>
    { id := toString i, patient_id := "P1", doctor_id := "D1",
      service_type_id := "S", appointment_time := i, status := .pending }

/-- Store of the C7 counterexample. -/
def dbC7 : Db :=
  { patients := [⟨"P1", true⟩]
    doctors := [⟨"D1", "C1", true⟩]
    clinics := ["C1"]
    service_types := [⟨"S", true, none, false⟩]
    bookings := bookingsC7 }

/-- The C7 caller-supplied filters: `limit = 500`. -/
def filtersC7 : ListFilters := { limit := some 500 }

/-- Counterexample to C7: with `limit = 500` the effective limit is 500 —
outside 1–100 — and the returned page indeed holds 101 rows, which an
effective limit of at most 100 could never produce. -/
theorem listBookings_limit_unclamped_counterexample :
    effectiveLimit filtersC7 = 500 ∧
    ¬ effectiveLimit filtersC7 ≤ 100 ∧
    (match listBookings dbC7 "P1" .patient filtersC7 with
     | .ok r => r.1.length
     | .error _ => 0) = 101 := by
  refine ⟨rfl, by decide, by decide⟩

/-- C7 amended: the returned page is bounded by the effective limit
`filters?.limit || 20`; that limit is 20 when the caller supplies nothing or
0, and otherwise is the caller's value unchanged — it is not clamped into
1–100. -/
theorem listBookings_effective_limit (db : Db) (userId : String)
    (userType : UserType) (filters : ListFilters) (page : List BookingRow)
    (total : Nat)
    (h : listBookings db userId userType filters = .ok (page, total)) :
    page.length ≤ (effectiveLimit filters).toNat ∧
    ((filters.limit = none ∨ filters.limit = some 0) →
      effectiveLimit filters = 20) ∧
    (∀ l : Int, filters.limit = some l → l ≠ 0 →
      effectiveLimit filters = l) := by
  refine ⟨?_, ?_, ?_⟩
  · simp only [listBookings] at h
    split at h
    · exact absurd h (by simp)
    · split at h
      · exact absurd h (by simp)
      · have hp := (Prod.mk.injEq _ _ _ _).mp (Except.ok.inj h)
        rw [← hp.1]
        exact List.length_take_le _ _
  · rintro (h1 | h1) <;> simp [effectiveLimit, h1]
  · intro l hl hne
    simp [effectiveLimit, hl, hne]

/-- Witness for C7 (amended): on the empty store with default filters the
call succeeds, the empty page is within the effective limit, and the
defaulted limit is 20. -/
theorem listBookings_effective_limit_witness :
    listBookings {} "u" .patient {} = .ok ([], 0) ∧
    ([] : List BookingRow).length ≤
      (effectiveLimit ({} : ListFilters)).toNat ∧
    ((({} : ListFilters).limit = none ∨
        ({} : ListFilters).limit = some 0) →
      effectiveLimit ({} : ListFilters) = 20) :=
  ⟨rfl, (listBookings_effective_limit {} "u" .patient {} [] 0 rfl).1,
    (listBookings_effective_limit {} "u" .patient {} [] 0 rfl).2.1⟩

/-! ## Claim C3: fixed-window rate limiting at maxRequests = 5

`POST /payments` is the endpoint configured with
`windowMs = 60000, maxRequests = 5`. -/

theorem rateLimitConfig_payments :
    rateLimitConfig "POST /payments" = ⟨60000, 5⟩ := by decide

/-- One `checkRateLimit` call on the `POST /payments` endpoint, with the
window pre-computed. -/
theorem checkRateLimit_payments_step (st : RLState) (idf : String)
    (t w : Int) (ht : t / 60000 = w) :
    checkRateLimit st idf "POST /payments" t =
      ((fun k => if k = (idf, "POST /payments", w * 60000) then
          st (idf, "POST /payments", w * 60000) + 1 else st k),
        if st (idf, "POST /payments", w * 60000) + 1 > 5 then
          .denied (ceilDiv1000 (w * 60000 + 60000 - t))
        else .allowed) := by
  simp only [checkRateLimit, rateLimitConfig_payments, ht]
  split_ifs <;> rfl

/-- Count and decision bookkeeping for one `POST /payments` call: the
window's counter increments, all other keys are untouched, and the decision
compares the new count with 5. -/
theorem checkRateLimit_payments_effect (st : RLState) (idf : String)
    (t w : Int) (ht : t / 60000 = w) :
    (checkRateLimit st idf "POST /payments" t).1
        (idf, "POST /payments", w * 60000) =
      st (idf, "POST /payments", w * 60000) + 1 ∧
    (∀ k, k ≠ (idf, "POST /payments", w * 60000) →
      (checkRateLimit st idf "POST /payments" t).1 k = st k) ∧
    (checkRateLimit st idf "POST /payments" t).2 =
      (if st (idf, "POST /payments", w * 60000) + 1 > 5 then
        .denied (ceilDiv1000 (w * 60000 + 60000 - t))
      else .allowed) := by
  rw [checkRateLimit_payments_step st idf t w ht]
  exact ⟨by simp, fun k hk => by simp [hk], rfl⟩

theorem runRateLimiter_res_cons (st : RLState) (idf ep : String) (t : Int)
    (ts : List Int) :
    (runRateLimiter st idf ep (t :: ts)).2 =
      (checkRateLimit st idf ep t).2 ::
        (runRateLimiter (checkRateLimit st idf ep t).1 idf ep ts).2 := rfl

theorem runRateLimiter_state_cons (st : RLState) (idf ep : String) (t : Int)
    (ts : List Int) :
    (runRateLimiter st idf ep (t :: ts)).1 =
      (runRateLimiter (checkRateLimit st idf ep t).1 idf ep ts).1 := rfl

/-- The decision sequence of consecutive same-window calls, starting from a
window counter already at `c`. -/
def expectedDecisions (c : Nat) (w : Int) : List Int → List RLResult
  | [] => []
  | t :: ts =>
      (if c + 1 > 5 then
        RLResult.denied (ceilDiv1000 (w * 60000 + 60000 - t))
      else RLResult.allowed) :: expectedDecisions (c + 1) w ts

/-- Behaviour of a run of same-window `POST /payments` calls: the decisions
follow `expectedDecisions`, the window counter advances by the number of
calls, and every other key is untouched. -/
theorem runRateLimiter_payments_run (idf : String) (w : Int) :
    ∀ (ts : List Int) (st : RLState), (∀ t ∈ ts, t / 60000 = w) →
      (runRateLimiter st idf "POST /payments" ts).2 =
        expectedDecisions (st (idf, "POST /payments", w * 60000)) w ts ∧
      (runRateLimiter st idf "POST /payments" ts).1
          (idf, "POST /payments", w * 60000) =
        st (idf, "POST /payments", w * 60000) + ts.length ∧
      (∀ k, k ≠ (idf, "POST /payments", w * 60000) →
        (runRateLimiter st idf "POST /payments" ts).1 k = st k) := by
  intro ts
  induction ts with
  | nil =>
      intro st _
      exact ⟨rfl, rfl, fun _ _ => rfl⟩
  | cons t ts ih =>
      intro st hw
      have ht : t / 60000 = w := hw t (List.mem_cons_self t ts)
      have heff := checkRateLimit_payments_effect st idf t w ht
      have hrest := ih (checkRateLimit st idf "POST /payments" t).1
        (fun x hx => hw x (List.mem_cons_of_mem t hx))
      refine ⟨?_, ?_, ?_⟩
      · rw [runRateLimiter_res_cons, heff.2.2, hrest.1, heff.1,
          expectedDecisions]
      · rw [runRateLimiter_state_cons, hrest.2.1, heff.1, List.length_cons]
        omega
      · intro k hk
        rw [runRateLimiter_state_cons, hrest.2.2 k hk, heff.2.1 k hk]

/-- C3: for one identity on the `maxRequests = 5, windowMs = 60000` endpoint
and a window with no prior requests, the first five calls of the window are
allowed, the sixth is denied with `retryAfter = ⌈(window end − now) / 1000⌉`
seconds — positive and at most 60 — and the first call of the following
(fresh) window is allowed again. -/
theorem rateLimiter_sixth_request_denied (st0 : RLState) (idf : String)
    (w t1 t2 t3 t4 t5 t6 : Int)
    (h1 : t1 / 60000 = w) (h2 : t2 / 60000 = w)
    (h3 : t3 / 60000 = w) (h4 : t4 / 60000 = w)
    (h5 : t5 / 60000 = w) (h6 : t6 / 60000 = w)
    (hst : st0 (idf, "POST /payments", w * 60000) = 0)
    (hnext : st0 (idf, "POST /payments", (w + 1) * 60000) = 0) :
    (runRateLimiter st0 idf "POST /payments" [t1, t2, t3, t4, t5, t6]).2 =
      [.allowed, .allowed, .allowed, .allowed, .allowed,
        .denied (ceilDiv1000 (w * 60000 + 60000 - t6))] ∧
    0 < ceilDiv1000 (w * 60000 + 60000 - t6) ∧
    ceilDiv1000 (w * 60000 + 60000 - t6) ≤ 60 ∧
    (∀ t7 : Int, t7 / 60000 = w + 1 →
      (checkRateLimit (runRateLimiter st0 idf "POST /payments"
          [t1, t2, t3, t4, t5, t6]).1 idf "POST /payments" t7).2 =
        .allowed) := by
  have hw : ∀ t ∈ [t1, t2, t3, t4, t5, t6], t / 60000 = w := by
    intro t ht
    simp only [List.mem_cons, List.not_mem_nil, or_false] at ht
    rcases ht with rfl | rfl | rfl | rfl | rfl | rfl <;> assumption
  have hrun := runRateLimiter_payments_run idf w [t1, t2, t3, t4, t5, t6]
    st0 hw
  have hceil : 0 < ceilDiv1000 (w * 60000 + 60000 - t6) ∧
      ceilDiv1000 (w * 60000 + 60000 - t6) ≤ 60 := by
    unfold ceilDiv1000
    omega
  refine ⟨?_, hceil.1, hceil.2, ?_⟩
  · rw [hrun.1, hst]
    norm_num [expectedDecisions]
  · intro t7 h7
    have e7 := checkRateLimit_payments_effect
      (runRateLimiter st0 idf "POST /payments" [t1, t2, t3, t4, t5, t6]).1
      idf t7 (w + 1) h7
    rw [e7.2.2]
    have hne : (idf, "POST /payments", (w + 1) * 60000) ≠
        (idf, "POST /payments", w * 60000) := by
      intro hk
      have h3rd := congrArg (fun p => p.2.2) hk
      simp only at h3rd
      omega
    rw [hrun.2.2 _ hne, hnext]
    norm_num

/-- Witness for C3: six calls at seconds 1–6 of window 0 and a seventh at
61 s. -/
theorem rateLimiter_sixth_request_denied_witness :
    (runRateLimiter (fun _ => 0) "user" "POST /payments"
        [1000, 2000, 3000, 4000, 5000, 6000]).2 =
      [.allowed, .allowed, .allowed, .allowed, .allowed, .denied 54] ∧
    (checkRateLimit (runRateLimiter (fun _ => 0) "user" "POST /payments"
        [1000, 2000, 3000, 4000, 5000, 6000]).1 "user" "POST /payments"
        61000).2 = .allowed := by
  have h := rateLimiter_sixth_request_denied (fun _ => 0) "user" 0
    1000 2000 3000 4000 5000 6000 rfl rfl rfl rfl rfl rfl rfl rfl
  have h54 : ceilDiv1000 (0 * 60000 + 60000 - 6000) = 54 := by decide
  refine ⟨?_, h.2.2.2 61000 rfl⟩
  rw [h.1, h54]

/-! ## Claim C9: the TokenBucket stays within [0, capacity] -/

/-- `refill` keeps the token count within `[0, capacity]` when time has not
gone backwards. -/
theorem TokenBucket.refill_bounds (b : TokenBucket) (now : ℚ)
    (hr : 0 ≤ b.refillRate) (h0 : 0 ≤ b.tokens) (hc : b.tokens ≤ b.capacity)
    (hn : b.lastRefill ≤ now) :
    0 ≤ (b.refill now).tokens ∧ (b.refill now).tokens ≤ b.capacity := by
  unfold TokenBucket.refill
  constructor
  · apply le_min
    · linarith
    · have hadd : 0 ≤ (now - b.lastRefill) / 1000 * b.refillRate :=
        mul_nonneg (div_nonneg (by linarith) (by norm_num)) hr
      linarith
  · exact min_le_left _ _

theorem TokenBucket.consume_capacity (b : TokenBucket) (n now : ℚ) :
    (b.consume n now).2.capacity = b.capacity := by
  simp only [TokenBucket.consume, TokenBucket.refill]
  split <;> rfl

theorem TokenBucket.consume_refillRate (b : TokenBucket) (n now : ℚ) :
    (b.consume n now).2.refillRate = b.refillRate := by
  simp only [TokenBucket.consume, TokenBucket.refill]
  split <;> rfl

theorem TokenBucket.consume_lastRefill (b : TokenBucket) (n now : ℚ) :
    (b.consume n now).2.lastRefill = now := by
  simp only [TokenBucket.consume, TokenBucket.refill]
  split <;> rfl

theorem TokenBucket.consume_tokens_bounds (b : TokenBucket) (n now : ℚ)
    (hr : 0 ≤ b.refillRate) (h0 : 0 ≤ b.tokens) (hc : b.tokens ≤ b.capacity)
    (hn : b.lastRefill ≤ now) (hpos : 0 ≤ n) :
    0 ≤ (b.consume n now).2.tokens ∧
      (b.consume n now).2.tokens ≤ b.capacity := by
  have hb := b.refill_bounds now hr h0 hc hn
  unfold TokenBucket.consume
  by_cases h : (b.refill now).tokens ≥ n
  · rw [if_pos h]
    constructor
    · simp only
      linarith
    · simp only
      linarith [hb.2]
  · rw [if_neg h]
    exact hb

/-- The bucket reached by running a well-formed call sequence keeps its
token count within `[0, capacity]` and never changes its capacity. -/
theorem runBucket_inv (ops : List BucketOp) :
    ∀ b : TokenBucket, 0 ≤ b.refillRate → 0 ≤ b.tokens →
      b.tokens ≤ b.capacity → ValidOps b.lastRefill ops →
      0 ≤ (runBucket b ops).tokens ∧
        (runBucket b ops).tokens ≤ (runBucket b ops).capacity ∧
        (runBucket b ops).capacity = b.capacity := by
  induction ops with
  | nil =>
      intro b _ h0 hc _
      exact ⟨h0, hc, rfl⟩
  | cons op ops ih =>
      intro b hr h0 hc hv
      obtain ⟨hle, hn, hrest⟩ := hv
      cases op with
      | consume n t =>
          have hb := b.consume_tokens_bounds n t hr h0 hc hle hn
          have hnext := ih (b.consume n t).2
            (by rw [TokenBucket.consume_refillRate]; exact hr) hb.1
            (by rw [TokenBucket.consume_capacity]; exact hb.2)
            (by rw [TokenBucket.consume_lastRefill]; exact hrest)
          refine ⟨hnext.1, hnext.2.1, ?_⟩
          rw [show runBucket b (.consume n t :: ops) =
            runBucket (b.consume n t).2 ops from rfl, hnext.2.2,
            TokenBucket.consume_capacity]
      | getAvail t =>
          have hb := b.refill_bounds t hr h0 hc hle
          have hstep : (b.getAvailableTokens t).2 = b.refill t := rfl
          have hnext := ih (b.getAvailableTokens t).2
            (by rw [hstep]; exact hr) (by rw [hstep]; exact hb.1)
            (by rw [hstep]; exact hb.2) (by rw [hstep]; exact hrest)
          refine ⟨hnext.1, hnext.2.1, ?_⟩
          rw [show runBucket b (.getAvail t :: ops) =
            runBucket (b.getAvailableTokens t).2 ops from rfl, hnext.2.2,
            hstep]
          rfl

/-- C9: starting from a bucket of capacity `C > 0` and refill rate `r ≥ 0`,
any well-formed call sequence keeps the token count within `[0, C]`, and one
`consume n` call succeeds — taking exactly `n` tokens from the refilled
count — precisely when the refilled count is at least `n`, leaving the
refilled count unchanged otherwise. -/
theorem tokenBucket_invariant (C r t0 : ℚ) (hC : 0 < C) (hr : 0 ≤ r)
    (ops : List BucketOp) (hops : ValidOps t0 ops) :
    (0 ≤ (runBucket (TokenBucket.init C r t0) ops).tokens ∧
      (runBucket (TokenBucket.init C r t0) ops).tokens ≤ C) ∧
    (∀ (b : TokenBucket) (n now : ℚ),
      ((b.consume n now).1 = true ↔ n ≤ (b.refill now).tokens) ∧
      ((b.consume n now).1 = true →
        (b.consume n now).2.tokens = (b.refill now).tokens - n) ∧
      ((b.consume n now).1 = false →
        (b.consume n now).2.tokens = (b.refill now).tokens)) := by
  constructor
  · have h := runBucket_inv ops (TokenBucket.init C r t0) hr hC.le le_rfl hops
    have h2 := h.2.1
    rw [h.2.2] at h2
    exact ⟨h.1, h2⟩
  · intro b n now
    unfold TokenBucket.consume
    by_cases h : (b.refill now).tokens ≥ n
    · rw [if_pos h]
      exact ⟨⟨fun _ => h, fun _ => rfl⟩, fun _ => rfl,
        fun hfalse => Bool.noConfusion hfalse⟩
    · rw [if_neg h]
      exact ⟨⟨fun htrue => Bool.noConfusion htrue, fun hle => absurd hle h⟩,
        fun htrue => Bool.noConfusion htrue, fun _ => rfl⟩

/-- The call sequence of the C9 witness. -/
def opsC9 : List BucketOp :=
  [.consume 3 1000, .getAvail 2000, .consume 100 3000, .consume 2 4000]

/-- Witness for C9: a capacity-10, 1 token/s bucket stays within [0, 10]
across a concrete call sequence, and its first consume succeeds exactly when
3 tokens are available. -/
theorem tokenBucket_invariant_witness :
    (0 ≤ (runBucket (TokenBucket.init 10 1 0) opsC9).tokens ∧
      (runBucket (TokenBucket.init 10 1 0) opsC9).tokens ≤ 10) ∧
    (((TokenBucket.init 10 1 0).consume 3 1000).1 = true ↔
      3 ≤ ((TokenBucket.init 10 1 0).refill 1000).tokens) := by
  have h := tokenBucket_invariant 10 1 0 (by norm_num) (by norm_num) opsC9
    (by norm_num [opsC9, ValidOps, BucketOp.time])
  exact ⟨h.1, (h.2 (TokenBucket.init 10 1 0) 3 1000).1⟩

end ClinicReservation
